import Mathlib

/-!
Verification of the pharmacy inventory-counting app (a Streamlit page over a
Google-Sheets data layer).  The data layer (`gs.py`) is embedded as pure
functions over an explicit worksheet value; the page handlers
(`pages/1_藥師盤點.py`) are embedded as functions over that state.

Modelling conventions:
* a worksheet is the grid of cell texts that `get_all_values` returns
  (`Sheet`), `Option Sheet` with `none` meaning the worksheet does not exist;
* a Python `dict` record is an insertion-ordered association list of
  column name to text value (`PyDict`); values are coerced to text at the
  sheet boundary, matching `str(...)` and the cell round-trip;
* a pandas missing value (`pd.NA`, produced by `df.replace("", pd.NA)` in
  `read_df`) is `Option.none`;
* `Series.astype(str)` passes every element through `str`, so the missing
  marker becomes the text `"<NA>"`; `bool(pd.NA)` raises `TypeError`, so the
  page's `x or ""` idiom is a fallible operation returning `Except`;
* `read_df`'s five-second memoization (`@st.cache_data(ttl=5)`) is modelled
  as a fresh read of the worksheet: the page clears the cache after every
  write, and single-session sequencing is the regime all claims speak about;
* Python's `str.strip()` is modelled over the ASCII whitespace set
  (`pystrip`), which covers every string these claims touch.
-/

/-- One worksheet: the grid of cell texts returned by `get_all_values`
(first row is the header row when present). -/
abbrev Sheet := List (List String)

/-- A Python dict used as a write record: insertion-ordered, text values. -/
abbrev PyDict := List (String × String)

/-- `record.get(k, d)` on a Python dict (keys are unique in a dict, so the
first binding is the binding). -/
def PyDict.get (r : PyDict) (k : String) (d : String) : String :=
  match r.find? (fun p => p.1 == k) with
  | some p => p.2
  | none => d

/-- `record.keys()` in insertion order. -/
def PyDict.keys (r : PyDict) : List String := r.map (fun p => p.1)

/-- `df.replace("", pd.NA)` applied to one cell: blank text becomes the
missing marker. -/
def toNA (s : String) : Option String := if s == "" then none else some s

/-- A pandas DataFrame as built by `read_df`: named columns and rows of
cells where `none` is the missing marker `pd.NA`. -/
structure DataFrame where
  columns : List String
  rows : List (List (Option String))
deriving DecidableEq

/-- `df.empty`: true when either axis has length zero. -/
def DataFrame.isEmpty (df : DataFrame) : Bool :=
  df.rows.isEmpty || df.columns.isEmpty

/-- `ensure_worksheet(name, headers)` (gs.py lines 39–56): fetch or create the
worksheet; when `headers` is given and the sheet has no values, write the
header row. -/
def ensure_worksheet (ws : Option Sheet) (headers : Option (List String)) : Sheet :=
  match ws with
  | none =>
    match headers with
    | some hs => [hs]
    | none => []
  | some rows =>
    match headers with
    | some hs => if rows.isEmpty then [hs] else rows
    | none => rows

/-- One sheet row viewed as a DataFrame record under a header: cell `j` of
the (rectangular, padded) grid, blank normalized to the missing marker. -/
def df_row (hdr : List String) (r : List String) : List (Option String) :=
  (List.range hdr.length).map (fun j => toNA (r.getD j ""))

/-- `read_df(sheet_name)` (gs.py lines 60–81): a missing worksheet or a
worksheet without values reads as the empty DataFrame; otherwise the first
row is the header, the remaining rows are the records, and blank cells are
normalized to the missing marker. -/
def read_df (ws : Option Sheet) : DataFrame :=
  match ws with
  | none => ⟨[], []⟩
  | some [] => ⟨[], []⟩
  | some (hdr :: recs) => ⟨hdr, recs.map (df_row hdr)⟩

/-- `_normalize_headers(ws, record)` (gs.py lines 84–104): keys of the record
that are not yet header columns are appended at the end of the header row,
which is rewritten in place (delete row 1, insert the new header at row 1).
Returns the resulting column order together with the updated sheet. -/
def _normalize_headers (rows : Sheet) (record : PyDict) : List String × Sheet :=
  let headers := rows.headD []
  let missing := record.keys.filter (fun k => !(headers.contains k))
  if missing.isEmpty then (headers, rows)
  else
    let newHeaders := headers ++ missing
    (newHeaders, newHeaders :: rows.drop 1)

/-- `append_row(sheet_name, record)` (gs.py lines 107–117): ensure the
worksheet, normalize the header, then append one row holding, for each header
column in order, the record's value or the empty string. -/
def append_row (ws : Option Sheet) (record : PyDict) : Sheet :=
  let rows := ensure_worksheet ws none
  let hr := _normalize_headers rows record
  hr.2 ++ [hr.1.map (fun h => record.get h "")]

/-- `Series.astype(str)` on one cell of an object column: every element is
passed through `str`, so the missing marker `pd.NA` becomes the text
`"<NA>"`. -/
def astype_str : Option String → String
  | none => "<NA>"
  | some s => s

/-- `.fillna("")` applied after `astype(str)`: the column no longer holds a
missing value at that point, so this is the identity. -/
def fillna_empty (s : String) : String := s

/-- `df[k]`: position of column `k`, `KeyError` when the column is absent. -/
def findCol (columns : List String) (k : String) : Except String Nat :=
  if columns.contains k then .ok (columns.findIdx (fun c => c == k))
  else .error ("KeyError: " ++ k)

/-- One row's conjunct of the upsert mask (gs.py lines 142–144): for every
key column `k`, `df[k].astype(str).fillna("") == str(record.get(k, ""))`
at this row. -/
def row_mask (columns : List String) (key_cols : List String) (record : PyDict)
    (dfRow : List (Option String)) : Except String Bool :=
  match key_cols with
  | [] => .ok true
  | k :: ks => do
    let j ← findCol columns k
    let rest ← row_mask columns ks record dfRow
    pure ((fillna_empty (astype_str (dfRow.getD j none)) == record.get k "") && rest)

/-- `ws.update("A{r}:{L}{r}", [vals])`: overwrite the cells of one row from
column 1 to column `vals.length`; cells beyond that range keep their value. -/
def update_row_range (oldRow newVals : List String) : List String :=
  newVals ++ oldRow.drop newVals.length

/-- `upsert_row(sheet_name, key_cols, record)` (gs.py lines 120–158): ensure
the worksheet, normalize the header, read the table back; if the DataFrame is
empty, append; otherwise build the key mask over all rows, overwrite the
first matching row over columns 1..len(headers), or append when no row
matches.  A key column absent from the DataFrame raises `KeyError`. -/
def upsert_row (ws : Option Sheet) (key_cols : List String) (record : PyDict) :
    Except String Sheet :=
  let rows0 := ensure_worksheet ws none
  let hr := _normalize_headers rows0 record
  let headers := hr.1
  let rows := hr.2
  let df := read_df (some rows)
  let newRow := headers.map (fun h => record.get h "")
  if df.isEmpty then
    .ok (rows ++ [newRow])
  else do
    let mask ← df.rows.mapM (row_mask df.columns key_cols record)
    match mask.findIdx? (fun b => b) with
    | some idx =>
      .ok (rows.set (idx + 1) (update_row_range (rows.getD (idx + 1) []) newRow))
    | none => .ok (rows ++ [newRow])

/-- Fixed audit-log header (gs.py line 166). -/
def AUDIT_HEADERS : List String :=
  ["ts", "device", "zone", "drug_code", "field", "old_value", "new_value", "user"]

/-- `append_audit(log)` (gs.py lines 161–170): ensure the `Audit_Log`
worksheet with the fixed header, then append one row taking each field from
the log record, empty when absent. -/
def append_audit (ws : Option Sheet) (log : PyDict) : Sheet :=
  let rows := ensure_worksheet ws (some AUDIT_HEADERS)
  rows ++ [AUDIT_HEADERS.map (fun h => log.get h "")]

/-- `_col_letter(n)` (gs.py lines 174–182): bijective base-26 column label,
`1 → "A"`, `27 → "AA"`, `0 → ""`. -/
def _col_letter : Nat → String
  | 0 => ""
  | n + 1 => _col_letter (n / 26) ++ (Char.ofNat (n % 26 + 65)).toString
termination_by n => n
decreasing_by simp_wf; omega

/-- A=1 … Z=26 value of one label character. -/
def letter_val (c : Char) : Nat := c.toNat - 64

/-- Bijective base-26 value of a column label string. -/
def col_val (s : String) : Nat :=
  s.data.foldl (fun acc c => acc * 26 + letter_val c) 0

/- ===== Counting page (pages/1_藥師盤點.py) ===== -/

/-- Column names used by the page (lines 60–65). -/
def COL_NAME : String := "藥品名稱"

def COL_LOC : String := "儲位"

def COL_QTY : String := "盤點數量"

def COL_OWNER : String := "盤點人"

def COL_NOTE : String := "備註"

def COL_TIME : String := "盤點時間"

/-- Python's default `str.strip()` whitespace set (ASCII part). -/
def isPySpace (c : Char) : Bool :=
  c == ' ' || c == '\t' || c == '\n' || c == '\r' || c == '\x0b' || c == '\x0c'

/-- Python `s.strip()` with no argument: drop leading and trailing
whitespace (modelled over the ASCII whitespace set). -/
def pystrip (s : String) : String :=
  String.mk (((s.data.dropWhile isPySpace).reverse.dropWhile isPySpace).reverse)

/-- ASCII letter test, the character class `[A-Za-z]` of the page's regex. -/
def isAsciiLetter (c : Char) : Bool :=
  ('A' ≤ c && c ≤ 'Z') || ('a' ≤ c && c ≤ 'z')

/-- `extract_zone(loc)` (page lines 85–90): a non-string input (the missing
marker) is `未分類`; otherwise match `[A-Za-z]` at the start of the stripped
string and return it uppercased, else `未分類`. -/
def extract_zone (loc : Option String) : String :=
  match loc with
  | none => "未分類"
  | some s =>
    match (pystrip s).data with
    | [] => "未分類"
    | c :: _ => if isAsciiLetter c then c.toUpper.toString else "未分類"

/-- The ownership gate (page line 193): editable when the stored operator is
blank after stripping or equals the session operator after stripping. -/
def can_edit (owner_existing user : String) : Bool :=
  (pystrip owner_existing == "") || (pystrip owner_existing == pystrip user)

/-- One DataFrame row as the page's loop sees it: column name ↦ cell, where
`none` is the missing marker `pd.NA`.  `row.get(col, "")` yields the string
`""` when the label is absent. -/
abbrev PyRow := List (String × Option String)

/-- `row.get(col, "")` on a DataFrame row. -/
def PyRow.get (row : PyRow) (k : String) : Option String :=
  match row.find? (fun p => p.1 == k) with
  | some p => p.2
  | none => some ""

/-- `str(x or "")` where `x` came from a DataFrame cell: `pd.NA` has no truth
value (`bool(pd.NA)` raises `TypeError: boolean value of NA is ambiguous`),
and a string is kept unless it is empty. -/
def str_or_empty : Option String → Except String String
  | none => .error "TypeError: boolean value of NA is ambiguous"
  | some s => .ok (if s == "" then "" else s)

/-- The per-row render-and-save path of the page (lines 183–271): extract the
row's fields with the `str(row.get(col, "") or "")` idiom, gate on
`can_edit`, and on save compute `old_val = str(qty or "")`, upsert the
payload keyed by (name, location), and append one quantity audit record when
the old and new quantity texts differ.  Returns the possibly-updated main
sheet and audit sheet (unchanged when the row is locked). -/
def save_row (row : PyRow) (user device now : String) (new_qty : Nat)
    (new_note : String) (ws auditWs : Option Sheet) :
    Except String (Option Sheet × Option Sheet) := do
  let name ← str_or_empty (row.get COL_NAME)
  let loc ← str_or_empty (row.get COL_LOC)
  let qty := row.get COL_QTY
  let _note ← str_or_empty (row.get COL_NOTE)
  let owner_existing ← str_or_empty (row.get COL_OWNER)
  let _time_existing ← str_or_empty (row.get COL_TIME)
  if can_edit owner_existing user then do
    let old_val ← str_or_empty qty
    let new_val := toString new_qty
    let payload : PyDict :=
      [(COL_NAME, name), (COL_LOC, loc), (COL_QTY, toString new_qty),
       (COL_NOTE, new_note), (COL_OWNER, user), (COL_TIME, now)]
    let ws2 ← upsert_row ws [COL_NAME, COL_LOC] payload
    let audit2 : Option Sheet :=
      if old_val != new_val then
        some (append_audit auditWs
          [("ts", now), ("device", device), ("zone", extract_zone (some loc)),
           ("drug_code", name), ("field", COL_QTY),
           ("old_value", old_val), ("new_value", new_val), ("user", user)])
      else auditWs
    pure (some ws2, audit2)
  else
    pure (ws, auditWs)

/-- The add-new-item handler (page lines 291–314): reject when the name or
the location is the empty string (Python falsiness) — no write happens;
otherwise append the new row and one `新增項目` audit record whose new value
is `盤點數量=<qty>`.  Returns (main sheet, audit sheet, accepted?). -/
def add_item (device user now : String) (new_name new_loc : String)
    (new_qty_val : Nat) (new_note_val : String) (ws auditWs : Option Sheet) :
    Option Sheet × Option Sheet × Bool :=
  if new_name == "" || new_loc == "" then (ws, auditWs, false)
  else
    let payload : PyDict :=
      [(COL_NAME, pystrip new_name), (COL_LOC, pystrip new_loc),
       (COL_QTY, toString new_qty_val), (COL_NOTE, pystrip new_note_val),
       (COL_OWNER, user), (COL_TIME, now)]
    let ws2 := append_row ws payload
    let audit2 := append_audit auditWs
      [("ts", now), ("device", device), ("zone", extract_zone (some new_loc)),
       ("drug_code", pystrip new_name), ("field", "新增項目"), ("old_value", ""),
       ("new_value", COL_QTY ++ "=" ++ toString new_qty_val), ("user", user)]
    (some ws2, some audit2, true)

/-- Number of data rows of a worksheet (rows below the header row). -/
def data_count (rows : Sheet) : Nat := (rows.drop 1).length

/- ===== Derived notions used by the theorems ===== -/

/-- The header as `upsert_row`/`append_row` computes it: normalize the header
of the ensured worksheet against the record. -/
abbrev upsert_headers (ws : Option Sheet) (record : PyDict) : List String :=
  (_normalize_headers (ensure_worksheet ws none) record).1

/-- The worksheet right after `ensure` + header normalization, before the
row write. -/
abbrev upsert_sheet0 (ws : Option Sheet) (record : PyDict) : Sheet :=
  (_normalize_headers (ensure_worksheet ws none) record).2

/-- The row a write builds from a record: for each header column in order,
the record's value, or the empty string when absent
(`[record.get(h, "") for h in headers]`). -/
abbrev record_row (headers : List String) (record : PyDict) : List String :=
  headers.map (fun h => PyDict.get record h "")

/-- The per-row key comparison of the upsert mask, as a total function: for
every key column, `astype(str).fillna("")` of the stored cell equals
`str(record.get(k, ""))`. -/
def key_match (columns : List String) (key_cols : List String) (record : PyDict)
    (dfRow : List (Option String)) : Bool :=
  key_cols.all (fun k =>
    fillna_empty (astype_str (dfRow.getD (columns.findIdx (fun c => c == k)) none))
      == record.get k "")

/-- Index of the first data row of a worksheet that the upsert mask matches
(`mask[mask].index[0]`), `none` when no row matches. -/
def first_match (rows : Sheet) (key_cols : List String) (record : PyDict) : Option Nat :=
  (read_df (some rows)).rows.findIdx?
    (key_match (read_df (some rows)).columns key_cols record)

/- ===== Helper lemmas ===== -/

theorem data_count_eq (rows : Sheet) : data_count rows = rows.length - 1 := by
  simp [data_count]

theorem read_df_columns (rows : Sheet) : (read_df (some rows)).columns = rows.headD [] := by
  cases rows <;> rfl

theorem read_df_rows (hdr : List String) (recs : List (List String)) :
    (read_df (some (hdr :: recs))).rows = recs.map (df_row hdr) := rfl

theorem except_bind_ok {α β ε : Type} (a : α) (f : α → Except ε β) :
    (Except.ok a : Except ε α) >>= f = f a := rfl

theorem normalize_fst_eq (rows : Sheet) (record : PyDict) :
    (_normalize_headers rows record).1 =
      rows.headD [] ++ record.keys.filter (fun k => !((rows.headD []).contains k)) := by
  simp only [_normalize_headers]
  split
  · next h =>
    rw [List.isEmpty_iff] at h
    simp only [h, List.append_nil]
  · rfl

theorem normalize_snd_headD (rows : Sheet) (record : PyDict) :
    ((_normalize_headers rows record).2).headD [] = (_normalize_headers rows record).1 := by
  simp only [_normalize_headers]
  split <;> rfl

theorem normalize_data_count (rows : Sheet) (record : PyDict) :
    data_count (_normalize_headers rows record).2 = data_count rows := by
  simp only [_normalize_headers]
  split
  · rfl
  · simp [data_count]

theorem normalize_snd_ne_nil (rows : Sheet) (record : PyDict)
    (h : (_normalize_headers rows record).1 ≠ []) :
    (_normalize_headers rows record).2 ≠ [] := by
  intro hnil
  apply h
  rw [← normalize_snd_headD, hnil]
  rfl

theorem normalize_fst_ne_nil (rows : Sheet) (record : PyDict) (h : record.keys ≠ []) :
    (_normalize_headers rows record).1 ≠ [] := by
  rw [normalize_fst_eq]
  intro hnil
  rcases List.append_eq_nil.mp hnil with ⟨h1, h2⟩
  rcases hkeys : record.keys with _ | ⟨k, ks⟩
  · exact h hkeys
  · rw [hkeys] at h2
    have hmm : k ∈ List.filter (fun x => !((rows.headD []).contains x)) (k :: ks) := by
      simp only [h1]
      simp
    rw [h2] at hmm
    simp at hmm

theorem row_mask_eq_ok (columns : List String) (key_cols : List String) (record : PyDict)
    (dfRow : List (Option String)) (h : ∀ k ∈ key_cols, columns.contains k = true) :
    row_mask columns key_cols record dfRow =
      Except.ok (key_match columns key_cols record dfRow) := by
  induction key_cols with
  | nil => rfl
  | cons k ks ih =>
    have hk : columns.contains k = true := h k (List.mem_cons_self k ks)
    have hks : ∀ x ∈ ks, columns.contains x = true :=
      fun x hx => h x (List.mem_cons_of_mem k hx)
    simp only [row_mask, findCol, hk, if_pos, key_match, List.all_cons, ih hks]
    rfl

theorem mapM_row_mask (columns : List String) (key_cols : List String) (record : PyDict)
    (dfRows : List (List (Option String)))
    (h : ∀ k ∈ key_cols, columns.contains k = true) :
    dfRows.mapM (row_mask columns key_cols record) =
      Except.ok (dfRows.map (key_match columns key_cols record)) := by
  induction dfRows with
  | nil => rfl
  | cons r rs ih =>
    rw [List.mapM_cons, row_mask_eq_ok columns key_cols record r h, ih]
    rfl

theorem normalize_eq_pair (rows : Sheet) (record : PyDict)
    (hne : (_normalize_headers rows record).1 ≠ []) :
    ∃ tl, _normalize_headers rows record =
      ((_normalize_headers rows record).1, (_normalize_headers rows record).1 :: tl) := by
  rcases hC : (_normalize_headers rows record).2 with _ | ⟨a, tl⟩
  · exact absurd hC (normalize_snd_ne_nil rows record hne)
  · have h2 := normalize_snd_headD rows record
    rw [hC] at h2
    simp only [List.headD_cons] at h2
    refine ⟨tl, ?_⟩
    rw [Prod.ext_iff]
    exact ⟨rfl, by rw [hC, h2]⟩

theorem upsert_row_cases (ws : Option Sheet) (key_cols : List String) (record : PyDict)
    (H : List String) (tl : Sheet)
    (hS : _normalize_headers (ensure_worksheet ws none) record = (H, H :: tl))
    (hH : H ≠ [])
    (hkeys : ∀ k ∈ key_cols, H.contains k = true) :
    upsert_row ws key_cols record =
      match (tl.map (df_row H)).findIdx? (key_match H key_cols record) with
      | some i => Except.ok ((H :: tl).set (i + 1)
          (update_row_range ((H :: tl).getD (i + 1) []) (record_row H record)))
      | none => Except.ok ((H :: tl) ++ [record_row H record]) := by
  have hHE : H.isEmpty = false := List.isEmpty_eq_false.mpr hH
  cases tl with
  | nil =>
    simp only [upsert_row, hS, read_df, DataFrame.isEmpty, List.map_nil,
      List.isEmpty_nil, Bool.true_or, List.findIdx?_nil, if_true]
  | cons t ts =>
    simp only [upsert_row, hS, read_df, DataFrame.isEmpty, List.map_cons,
      List.isEmpty_cons, hHE, Bool.or_false, Bool.false_eq_true, if_false]
    rw [show ((df_row H t :: List.map (df_row H) ts).mapM (row_mask H key_cols record)) =
        Except.ok ((df_row H t :: List.map (df_row H) ts).map (key_match H key_cols record)) from
      mapM_row_mask H key_cols record _ hkeys]
    rw [except_bind_ok]
    rw [show ((df_row H t :: List.map (df_row H) ts).map
          (key_match H key_cols record)).findIdx? (fun b => b) =
        (df_row H t :: List.map (df_row H) ts).findIdx? (key_match H key_cols record) from by
      rw [List.findIdx?_map]; rfl]

theorem first_match_cons (H : List String) (tl : Sheet) (key_cols : List String)
    (record : PyDict) :
    first_match (H :: tl) key_cols record =
      (tl.map (df_row H)).findIdx? (key_match H key_cols record) := rfl

/-- **C1**: `upsert_row` with a row matching the key mask overwrites the first
matching row in place — same position, full header-width contents with
missing record fields written as empty — leaving the row count unchanged;
with no matching row it appends exactly one new row, increasing the row
count by exactly one.  Exactly one of the two happens. -/
theorem upsert_hit_or_miss (ws : Option Sheet) (key_cols : List String) (record : PyDict)
    (hne : upsert_headers ws record ≠ [])
    (hkeys : ∀ k ∈ key_cols, (upsert_headers ws record).contains k = true) :
    ∃ rows2, upsert_row ws key_cols record = Except.ok rows2 ∧
      ((∃ i, first_match (upsert_sheet0 ws record) key_cols record = some i ∧
          rows2 = (upsert_sheet0 ws record).set (i + 1)
            (update_row_range ((upsert_sheet0 ws record).getD (i + 1) [])
              (record_row (upsert_headers ws record) record)) ∧
          rows2.length = (upsert_sheet0 ws record).length ∧
          data_count rows2 = data_count (ensure_worksheet ws none) ∧
          (∀ j, j ≠ i + 1 → rows2.getD j [] = (upsert_sheet0 ws record).getD j []) ∧
          (rows2.getD (i + 1) []).take (upsert_headers ws record).length =
            record_row (upsert_headers ws record) record) ∨
        (first_match (upsert_sheet0 ws record) key_cols record = none ∧
          rows2 = upsert_sheet0 ws record ++ [record_row (upsert_headers ws record) record] ∧
          data_count rows2 = data_count (ensure_worksheet ws none) + 1)) := by
  obtain ⟨tl, hS⟩ := normalize_eq_pair (ensure_worksheet ws none) record hne
  have hsheet : upsert_sheet0 ws record = upsert_headers ws record :: tl := by
    show (_normalize_headers (ensure_worksheet ws none) record).2 =
      (_normalize_headers (ensure_worksheet ws none) record).1 :: tl
    rw [hS]
  have hdc : data_count (upsert_sheet0 ws record) = data_count (ensure_worksheet ws none) :=
    normalize_data_count _ record
  have hcases := upsert_row_cases ws key_cols record (upsert_headers ws record) tl hS hne hkeys
  rcases hFM : (tl.map (df_row (upsert_headers ws record))).findIdx?
      (key_match (upsert_headers ws record) key_cols record) with _ | i
  · rw [hFM] at hcases
    refine ⟨_, hcases, Or.inr ⟨?_, ?_, ?_⟩⟩
    · rw [hsheet, first_match_cons, hFM]
    · rw [hsheet]
    · rw [hsheet] at hdc
      simp only [data_count, List.drop_succ_cons, List.drop_zero] at hdc ⊢
      simp only [List.cons_append, List.drop_succ_cons, List.drop_zero, List.length_append,
        List.length_cons, List.length_nil]
      omega
  · rw [hFM] at hcases
    have hi : i < tl.length := by
      have := (List.findIdx?_eq_some_iff_findIdx_eq.mp hFM).1
      simpa using this
    refine ⟨_, hcases, Or.inl ⟨i, ?_, ?_, ?_, ?_, ?_, ?_⟩⟩
    · rw [hsheet, first_match_cons, hFM]
    · rw [hsheet]
    · rw [hsheet]
      simp [List.length_set]
    · rw [hsheet] at hdc
      simp only [data_count_eq, List.length_set] at hdc ⊢
      exact hdc
    · intro j hj
      rw [hsheet]
      simp only [List.getD_eq_getElem?_getD]
      rw [List.getElem?_set_ne (by omega)]
    · have hlt : i + 1 < (upsert_headers ws record :: tl).length := by
        simp only [List.length_cons]
        omega
      simp only [List.getD_eq_getElem?_getD]
      rw [List.getElem?_set_self hlt]
      simp only [Option.getD_some]
      exact List.take_left' (by simp [record_row])

theorem map_range_getD {α β : Type} (xs : List α) (f : α → β) (d : α) :
    (List.range xs.length).map (fun j => f (xs.getD j d)) = xs.map f := by
  induction xs with
  | nil => rfl
  | cons x xs ih =>
    rw [List.length_cons, List.range_succ_eq_map, List.map_cons, List.map_map]
    simp only [List.getD_cons_zero]
    congr 1

theorem df_row_record_row (hdr : List String) (record : PyDict) :
    df_row hdr (record_row hdr record) =
      hdr.map (fun h => toNA (PyDict.get record h "")) := by
  show (List.range hdr.length).map
      (fun j => toNA ((hdr.map (fun h => PyDict.get record h "")).getD j "")) = _
  rw [show hdr.length = (hdr.map (fun h => PyDict.get record h "")).length from
    (List.length_map hdr _).symm]
  rw [map_range_getD, List.map_map]
  rfl

theorem append_row_eq (ws : Option Sheet) (record : PyDict)
    (hne : upsert_headers ws record ≠ []) :
    ∃ tl, upsert_sheet0 ws record = upsert_headers ws record :: tl ∧
      append_row ws record =
        upsert_headers ws record :: (tl ++ [record_row (upsert_headers ws record) record]) := by
  obtain ⟨tl, hS⟩ := normalize_eq_pair (ensure_worksheet ws none) record hne
  refine ⟨tl, ?_, ?_⟩
  · show (_normalize_headers (ensure_worksheet ws none) record).2 =
      (_normalize_headers (ensure_worksheet ws none) record).1 :: tl
    rw [hS]
  · show (_normalize_headers (ensure_worksheet ws none) record).2 ++
      [(_normalize_headers (ensure_worksheet ws none) record).1.map
        (fun h => PyDict.get record h "")] = _
    rw [hS]
    rfl

theorem append_row_data_count (ws : Option Sheet) (record : PyDict)
    (hne : upsert_headers ws record ≠ []) :
    data_count (append_row ws record) = data_count (ensure_worksheet ws none) + 1 := by
  obtain ⟨tl, hsheet, happ⟩ := append_row_eq ws record hne
  have hdc : data_count (upsert_sheet0 ws record) = data_count (ensure_worksheet ws none) :=
    normalize_data_count (ensure_worksheet ws none) record
  rw [hsheet] at hdc
  rw [happ]
  simp only [data_count, List.drop_succ_cons, List.drop_zero, List.length_append,
    List.length_cons, List.length_nil] at hdc ⊢
  omega

/-- **C4**: `append` followed by `readAll`: the header of the result is the
(possibly grown) normalized header, and the last row of the result equals the
record projected onto that header in header order, with fields absent from
the record read back as empty (missing) values. -/
theorem append_then_read_last (ws : Option Sheet) (record : PyDict)
    (hne : upsert_headers ws record ≠ []) :
    (read_df (some (append_row ws record))).columns = upsert_headers ws record ∧
    (read_df (some (append_row ws record))).rows.getLast? =
      some ((upsert_headers ws record).map (fun h => toNA (PyDict.get record h ""))) := by
  obtain ⟨tl, hsheet, happ⟩ := append_row_eq ws record hne
  constructor
  · rw [happ]
    rfl
  · rw [happ]
    show ((tl ++ [record_row (upsert_headers ws record) record]).map
        (df_row (upsert_headers ws record))).getLast? = _
    rw [List.map_append]
    simp only [List.map_cons, List.map_nil]
    rw [List.getLast?_concat, df_row_record_row]

/-- Witness for C4 at a concrete table and record: the header grows from
`["n"]` to `["n", "q"]` and the appended row reads back projected onto it. -/
theorem append_then_read_last_witness :
    (read_df (some (append_row (some [["n"], ["a"]]) [("n", "b"), ("q", "9")]))).columns =
        upsert_headers (some [["n"], ["a"]]) [("n", "b"), ("q", "9")] ∧
    (read_df (some (append_row (some [["n"], ["a"]]) [("n", "b"), ("q", "9")]))).rows.getLast? =
      some ((upsert_headers (some [["n"], ["a"]]) [("n", "b"), ("q", "9")]).map
        (fun h => toNA (PyDict.get [("n", "b"), ("q", "9")] h ""))) :=
  append_then_read_last (some [["n"], ["a"]]) [("n", "b"), ("q", "9")] (by decide)

/-- Witness for C1 at a concrete table: the key `n = "b"` matches the second
data row, which is overwritten in place. -/
theorem upsert_hit_or_miss_witness :
    upsert_row (some [["n", "q"], ["a", "1"], ["b", "2"]]) ["n"] [("n", "b"), ("q", "9")] =
      Except.ok [["n", "q"], ["a", "1"], ["b", "9"]] := by
  obtain ⟨rows2, heq, hcase⟩ :=
    upsert_hit_or_miss (some [["n", "q"], ["a", "1"], ["b", "2"]]) ["n"]
      [("n", "b"), ("q", "9")] (by decide) (by decide)
  rcases hcase with ⟨i, hFM, hset, -, -, -, -⟩ | ⟨hFM, -, -⟩
  · have hconc : first_match (upsert_sheet0 (some [["n", "q"], ["a", "1"], ["b", "2"]])
        [("n", "b"), ("q", "9")]) ["n"] [("n", "b"), ("q", "9")] = some 1 := by decide
    rw [hconc] at hFM
    have hi : i = 1 := by simpa using hFM.symm
    subst hi
    rw [heq, hset]
    have hval : (upsert_sheet0 (some [["n", "q"], ["a", "1"], ["b", "2"]])
          [("n", "b"), ("q", "9")]).set (1 + 1)
        (update_row_range ((upsert_sheet0 (some [["n", "q"], ["a", "1"], ["b", "2"]])
            [("n", "b"), ("q", "9")]).getD (1 + 1) [])
          (record_row (upsert_headers (some [["n", "q"], ["a", "1"], ["b", "2"]])
            [("n", "b"), ("q", "9")]) [("n", "b"), ("q", "9")])) =
        [["n", "q"], ["a", "1"], ["b", "9"]] := by decide
    rw [hval]
  · exfalso
    have hconc : first_match (upsert_sheet0 (some [["n", "q"], ["a", "1"], ["b", "2"]])
        [("n", "b"), ("q", "9")]) ["n"] [("n", "b"), ("q", "9")] = some 1 := by decide
    rw [hconc] at hFM
    simp at hFM

/-- **C3**: `normalizeHeader` followed by `readAll` never loses a pre-existing
column: the resulting header is the prior header followed, in record-key
order, by exactly the record keys not already present, so it preserves the
original column order, appends new columns at the end, and is a superset of
the prior header united with the record's keys. -/
theorem normalize_header_superset (rows : Sheet) (record : PyDict) :
    (read_df (some (_normalize_headers rows record).2)).columns =
      (_normalize_headers rows record).1 ∧
    (_normalize_headers rows record).1 =
      rows.headD [] ++ record.keys.filter (fun k => !((rows.headD []).contains k)) ∧
    rows.headD [] ⊆ (_normalize_headers rows record).1 ∧
    record.keys ⊆ (_normalize_headers rows record).1 := by
  refine ⟨?_, normalize_fst_eq rows record, ?_, ?_⟩
  · rw [read_df_columns, normalize_snd_headD]
  · rw [normalize_fst_eq]
    exact List.subset_append_left _ _
  · rw [normalize_fst_eq]
    intro k hk
    by_cases hc : (rows.headD []).contains k = true
    · exact List.mem_append_left _ (List.mem_of_elem_eq_true hc)
    · refine List.mem_append_right _ ?_
      rw [List.mem_filter]
      have hfalse : (rows.headD []).contains k = false := Bool.eq_false_iff.mpr hc
      exact ⟨hk, by rw [hfalse]; rfl⟩

/-- **C7**: zone derivation: the zone of a location is its first character
uppercased when the stripped location starts with an ASCII letter, and
`未分類` (unclassified) when the location is missing, empty, or does not
start with a letter; in particular `"B01" → "B"`, `"" → 未分類`,
`"7x" → 未分類`. -/
theorem extract_zone_spec :
    extract_zone none = "未分類" ∧
    extract_zone (some "B01") = "B" ∧
    extract_zone (some "") = "未分類" ∧
    extract_zone (some "7x") = "未分類" ∧
    ∀ s : String, extract_zone (some s) =
      (match (pystrip s).data.head? with
       | some c => if isAsciiLetter c then c.toUpper.toString else "未分類"
       | none => "未分類") := by
  refine ⟨rfl, by decide, rfl, by decide, ?_⟩
  intro s
  rcases h : (pystrip s).data with _ | ⟨c, rest⟩
  · simp [extract_zone, h]
  · simp [extract_zone, h]

/-- **C8**: the ownership gate: a row is editable exactly when its stored
operator, stripped, is blank or equals the session operator, stripped, by a
case-sensitive character-for-character comparison; `"Alice"` stays locked
for `"alice"`, and a blank operator is editable by anyone. -/
theorem can_edit_spec :
    (∀ owner user : String,
      can_edit owner user = true ↔
        (pystrip owner = "" ∨ pystrip owner = pystrip user)) ∧
    can_edit "Alice" "alice" = false ∧
    (∀ user : String, can_edit "" user = true) := by
  refine ⟨?_, by decide, ?_⟩
  · intro owner user
    simp [can_edit]
  · intro user
    have h : pystrip "" = "" := rfl
    simp [can_edit, h]

/-- **C2** (code bug): the upsert mask applies `astype(str)` before
`.fillna("")`, so a blank stored key cell compares as the text `"<NA>"` and
never as the empty string: a record whose key value is `""` fails to match a
row whose stored key cell is blank, and `upsert_row` appends a duplicate
row instead of overwriting the matching row in place. -/
theorem upsert_blank_key_mismatch :
    fillna_empty (astype_str (toNA "")) = "<NA>" ∧
    first_match [["name", "qty"], ["", "5"]] ["name"] [("name", ""), ("qty", "7")] = none ∧
    upsert_row (some [["name", "qty"], ["", "5"]]) ["name"] [("name", ""), ("qty", "7")] =
      Except.ok [["name", "qty"], ["", "5"], ["", "7"]] ∧
    data_count [["name", "qty"], ["", "5"], ["", "7"]] = 2 :=
  ⟨rfl, rfl, rfl, rfl⟩

/-- **C5** (code bug): upsert is not idempotent when a key value is the empty
string: the first call appends a row whose key cell is blank, the second
call reads that blank back as the missing marker, coerces it to `"<NA>" ≠ ""`
and appends again, so the row count grows on the repeated call. -/
theorem upsert_twice_appends_again :
    upsert_row (some [["n"]]) ["n"] [("n", "")] = Except.ok [["n"], [""]] ∧
    upsert_row (some [["n"], [""]]) ["n"] [("n", "")] = Except.ok [["n"], [""], [""]] ∧
    data_count [["n"], [""], [""]] ≠ data_count [["n"], [""]] :=
  ⟨rfl, rfl, by decide⟩

/-- **C6** (code bug): on the spec's end-to-end row `{name: Aspirin,
location: B01, qty: blank, operator: blank}` the page's render-and-save path
evaluates `value or ""` on cells that `read_df` normalized to `pd.NA`, whose
truth value raises `TypeError`, so the save never runs and no audit record is
written. -/
theorem save_blank_row_type_error :
    save_row [(COL_NAME, some "Aspirin"), (COL_LOC, some "B01"), (COL_QTY, none),
        (COL_OWNER, none)] "Bob" "21" "2026-10-12 09:00:00" 12 ""
      (some [[COL_NAME, COL_LOC, COL_QTY, COL_OWNER], ["Aspirin", "B01", "", ""]]) none =
      Except.error "TypeError: boolean value of NA is ambiguous" := rfl

/-- **C9**: the add-new-item action with an empty name or empty location is
rejected before any write — table and audit states unchanged, no row and no
audit record appended; with non-empty name and location it appends exactly
one row built from the given fields plus operator and timestamp, and appends
exactly one audit record with field `新增項目` whose new value encodes the
quantity as `盤點數量=<qty>`. -/
theorem add_item_spec (device user now name loc : String) (qty : Nat) (note : String)
    (ws auditWs : Option Sheet) :
    ((name = "" ∨ loc = "") →
      add_item device user now name loc qty note ws auditWs = (ws, auditWs, false)) ∧
    (name ≠ "" → loc ≠ "" →
      add_item device user now name loc qty note ws auditWs =
        (some (append_row ws
            [(COL_NAME, pystrip name), (COL_LOC, pystrip loc), (COL_QTY, toString qty),
             (COL_NOTE, pystrip note), (COL_OWNER, user), (COL_TIME, now)]),
         some (ensure_worksheet auditWs (some AUDIT_HEADERS) ++
            [[now, device, extract_zone (some loc), pystrip name, "新增項目", "",
              COL_QTY ++ "=" ++ toString qty, user]]),
         true) ∧
      data_count (append_row ws
          [(COL_NAME, pystrip name), (COL_LOC, pystrip loc), (COL_QTY, toString qty),
           (COL_NOTE, pystrip note), (COL_OWNER, user), (COL_TIME, now)]) =
        data_count (ensure_worksheet ws none) + 1 ∧
      (ensure_worksheet auditWs (some AUDIT_HEADERS) ++
          [[now, device, extract_zone (some loc), pystrip name, "新增項目", "",
            COL_QTY ++ "=" ++ toString qty, user]]).length =
        (ensure_worksheet auditWs (some AUDIT_HEADERS)).length + 1) := by
  constructor
  · intro h
    rcases h with h | h
    · simp [add_item, h]
    · simp [add_item, h]
  · intro hn hl
    have hcond : (name == "" || loc == "") = false := by simp [hn, hl]
    refine ⟨?_, ?_, ?_⟩
    · simp only [add_item, hcond, Bool.false_eq_true, if_false]
      rfl
    · exact append_row_data_count ws _
        (normalize_fst_ne_nil _ _ (by simp [PyDict.keys]))
    · simp

/-- Witness for C9 at concrete inputs: non-empty name and location append the
row and exactly one `新增項目` audit record. -/
theorem add_item_spec_witness :
    add_item "21" "Bob" "now" "Aspirin" "B01" 3 "hi" (some [["x"]]) none =
      (some (append_row (some [["x"]])
          [(COL_NAME, pystrip "Aspirin"), (COL_LOC, pystrip "B01"), (COL_QTY, toString 3),
           (COL_NOTE, pystrip "hi"), (COL_OWNER, "Bob"), (COL_TIME, "now")]),
       some (ensure_worksheet none (some AUDIT_HEADERS) ++
          [["now", "21", extract_zone (some "B01"), pystrip "Aspirin", "新增項目", "",
            COL_QTY ++ "=" ++ toString 3, "Bob"]]),
       true) :=
  ((add_item_spec "21" "Bob" "now" "Aspirin" "B01" 3 "hi" (some [["x"]]) none).2
    (by decide) (by decide)).1

theorem char_ofNat_toNat_letter :
    ∀ r : Fin 26, (Char.ofNat (r.val + 65)).toNat = r.val + 65 := by decide

theorem char_ofNat_letter_upper :
    ∀ r : Fin 26, (Char.ofNat (r.val + 65)).isUpper = true := by decide

theorem col_val_append_char (s : String) (c : Char) :
    col_val (s ++ c.toString) = col_val s * 26 + letter_val c := by
  simp only [col_val, String.data_append]
  rw [show c.toString.data = [c] from rfl, List.foldl_append]
  rfl

theorem col_letter_val (n : Nat) : col_val (_col_letter n) = n := by
  induction n using Nat.strong_induction_on with
  | _ n ih =>
    cases n with
    | zero => simp [_col_letter, col_val]
    | succ m =>
      rw [show _col_letter (m + 1) =
          _col_letter (m / 26) ++ (Char.ofNat (m % 26 + 65)).toString from by
        simp [_col_letter]]
      rw [col_val_append_char, ih (m / 26) (by omega)]
      have h2 : letter_val (Char.ofNat (m % 26 + 65)) = m % 26 + 1 := by
        have h := char_ofNat_toNat_letter ⟨m % 26, Nat.mod_lt m (by omega)⟩
        simp only [letter_val, h]
        omega
      rw [h2]
      omega

theorem col_letter_upper (n : Nat) : (_col_letter n).data.all Char.isUpper = true := by
  induction n using Nat.strong_induction_on with
  | _ n ih =>
    cases n with
    | zero => simp [_col_letter]
    | succ m =>
      rw [show _col_letter (m + 1) =
          _col_letter (m / 26) ++ (Char.ofNat (m % 26 + 65)).toString from by
        simp [_col_letter]]
      rw [String.data_append, List.all_append]
      have h1 := ih (m / 26) (by omega)
      have h2 := char_ofNat_letter_upper ⟨m % 26, Nat.mod_lt m (by omega)⟩
      simp only at h2
      rw [h1, show (Char.ofNat (m % 26 + 65)).toString.data =
        [Char.ofNat (m % 26 + 65)] from rfl]
      simp [h2]

theorem col_letter_ne_empty (n : Nat) : _col_letter (n + 1) ≠ "" := by
  rw [show _col_letter (n + 1) =
      _col_letter (n / 26) ++ (Char.ofNat (n % 26 + 65)).toString from by
    simp [_col_letter]]
  intro h
  have hdata := congrArg String.data h
  rw [String.data_append, show (Char.ofNat (n % 26 + 65)).toString.data =
    [Char.ofNat (n % 26 + 65)] from rfl] at hdata
  simp at hdata

/-- **C10**: `_col_letter` is the bijective base-26 spreadsheet column label:
its positional A=1…Z=26 value is the input, all its characters are uppercase
letters, it is nonempty for every n ≥ 1 and empty at 0, with `1 → "A"`,
`26 → "Z"`, `27 → "AA"`, `53 → "BA"`; consequently the rectangle a hit of
`upsert_row` overwrites (`A{row}` through column `_col_letter len(headers)`)
spans exactly the first `len(headers)` cells of the matched row, and cells
beyond that are preserved. -/
theorem col_letter_spec :
    (∀ n : Nat, col_val (_col_letter n) = n) ∧
    (∀ n : Nat, (_col_letter n).data.all Char.isUpper = true) ∧
    (∀ n : Nat, _col_letter (n + 1) ≠ "") ∧
    (_col_letter 0 = "" ∧ _col_letter 1 = "A" ∧ _col_letter 26 = "Z" ∧
      _col_letter 27 = "AA" ∧ _col_letter 53 = "BA") ∧
    (∀ (headers : List String) (record : PyDict),
      (record_row headers record).length = headers.length ∧
      col_val (_col_letter headers.length) = headers.length) ∧
    (∀ ws key_cols record i,
      upsert_headers ws record ≠ [] →
      (∀ k ∈ key_cols, (upsert_headers ws record).contains k = true) →
      first_match (upsert_sheet0 ws record) key_cols record = some i →
      ∃ rows2, upsert_row ws key_cols record = Except.ok rows2 ∧
        (rows2.getD (i + 1) []).take (upsert_headers ws record).length =
          record_row (upsert_headers ws record) record ∧
        (rows2.getD (i + 1) []).drop (upsert_headers ws record).length =
          ((upsert_sheet0 ws record).getD (i + 1) []).drop
            (upsert_headers ws record).length) := by
  refine ⟨col_letter_val, col_letter_upper, col_letter_ne_empty,
    ⟨by simp [_col_letter], by simp [_col_letter]; decide, by simp [_col_letter]; decide,
     by simp [_col_letter]; decide, by simp [_col_letter]; decide⟩,
    fun headers record => ⟨List.length_map _ _, col_letter_val _⟩, ?_⟩
  intro ws key_cols record i hne hkeys hFM
  obtain ⟨tl, hS⟩ := normalize_eq_pair (ensure_worksheet ws none) record hne
  have hsheet : upsert_sheet0 ws record = upsert_headers ws record :: tl := by
    show (_normalize_headers (ensure_worksheet ws none) record).2 =
      (_normalize_headers (ensure_worksheet ws none) record).1 :: tl
    rw [hS]
  rw [hsheet, first_match_cons] at hFM
  have hcases := upsert_row_cases ws key_cols record (upsert_headers ws record) tl hS hne hkeys
  rw [hFM] at hcases
  have hi : i < tl.length := by
    have hlen := (List.findIdx?_eq_some_iff_findIdx_eq.mp hFM).1
    simpa using hlen
  have hlt : i + 1 < (upsert_headers ws record :: tl).length := by
    simp only [List.length_cons]
    omega
  have hlen : (record_row (upsert_headers ws record) record).length =
      (upsert_headers ws record).length := List.length_map _ _
  refine ⟨_, hcases, ?_, ?_⟩
  · simp only [List.getD_eq_getElem?_getD]
    rw [List.getElem?_set_self hlt]
    simp only [Option.getD_some]
    exact List.take_left' hlen
  · rw [hsheet]
    simp only [List.getD_eq_getElem?_getD]
    rw [List.getElem?_set_self hlt]
    simp only [Option.getD_some]
    exact (List.drop_left' hlen).trans (by rw [hlen])
